import Mathlib

/-!
Verification of the resilient API transport layer of `opsgenie-cli`
(`src/pkg/api/client.go` and `src/pkg/api/types.go`).

The embedding models one logical operation of the client against an abstract
environment: a stream of transport-level results, one per invocation of the
transport primitive `doRequest`.  Each operation is interpreted into a `Trace`
recording, in order, the requests issued, the sleeps performed, the final
outcome and the value (if any) delivered to the caller's result target.

Modelling conventions:
* HTTP response bodies are a pair of the raw byte string (used for the
  empty-body check and for error-message truncation) and the result of JSON
  parsing (`none` when the bytes are not valid JSON).  `json.Unmarshal` into
  the concrete Go struct shapes of the source is modelled by per-shape
  decoders below; absent fields decode to Go zero values, present fields of
  the wrong type make the decode fail, exactly as `encoding/json` does.
  Fractional JSON numbers and duplicate object keys are not modelled.
* The caller's result target (`result interface{}`) is opaque to the
  transport layer; it is modelled as `none` (a nil target) or a predicate
  saying which JSON values unmarshal into it.
* Time is counted in abstract units (one unit = one second).  `time.Sleep`
  is recorded in the trace; the poller's wall-clock deadline is modelled by
  the remaining number of whole poll intervals, `maxPollDuration - clock`,
  which the loop decreases by one per iteration.
* Debug logging (`debugLog`) is purely observational in the source and is
  not modelled.  URL percent-escaping and `url.Values.Encode` key sorting
  are not modelled; no property below depends on them.
-/

namespace Opsgenie

/-! Constants from `client.go`. -/

def maxRetries : Nat := 3

def pollInterval : Nat := 1

def maxPollDuration : Nat := 30

/-- JSON value, the abstraction of a parsed response body. -/
inductive Json where
  | null
  | bool (b : Bool)
  | num (n : Int)
  | str (s : String)
  | arr (items : List Json)
  | obj (fields : List (String × Json))

/-- Raw HTTP response body: the raw bytes together with their JSON parse
(`none` when the bytes are not valid JSON, e.g. an empty body). -/
structure Body where
  raw : String
  json : Option Json

/-- Empty response body. -/
def emptyBody : Body := ⟨"", none⟩

/-- Result of one invocation of the transport primitive `doRequest`: either a
transport-level failure (connection / DNS / timeout, surfaced as a non-nil
`error`), or a status code with a raw body. -/
inductive TResult where
  | err (msg : String)
  | ok (status : Nat) (body : Body)

/-- Environment of one logical operation: the `k`-th invocation of the
transport primitive observes `env k`. -/
abbrev Env := Nat → TResult

/-- Caller's result target: `none` models a nil `result interface{}`;
`some accepts` models a typed target, where `accepts j` says whether the
JSON value `j` unmarshals into it. -/
abbrev Tgt := Option (Json → Bool)

/-! JSON field decoding, mirroring `encoding/json` unmarshalling into the
struct shapes declared in the source. -/

/-- Look up a field of a JSON object. -/
def getField : List (String × Json) → String → Option Json
  | [], _ => none
  | (k, v) :: rest, key => if k = key then some v else getField rest key

/-- Decode a `string` struct field: absent or null keeps the zero value. -/
def decodeStrField (fs : List (String × Json)) (key : String) : Option String :=
  match getField fs key with
  | none => some ""
  | some Json.null => some ""
  | some (Json.str s) => some s
  | some _ => none

/-- Decode an `int` struct field: absent or null keeps the zero value. -/
def decodeIntField (fs : List (String × Json)) (key : String) : Option Int :=
  match getField fs key with
  | none => some 0
  | some Json.null => some 0
  | some (Json.num n) => some n
  | some _ => none

/-- Decode a `bool` struct field: absent or null keeps the zero value. -/
def decodeBoolField (fs : List (String × Json)) (key : String) : Option Bool :=
  match getField fs key with
  | none => some false
  | some Json.null => some false
  | some (Json.bool b) => some b
  | some _ => none

/-- Decode the elements of a `[]string` value. -/
def decodeStrItems : List Json → Option (List String)
  | [] => some []
  | Json.str s :: rest => (decodeStrItems rest).map fun xs => s :: xs
  | Json.null :: rest => (decodeStrItems rest).map fun xs => "" :: xs
  | _ :: _ => none

/-- Decode a `[]string` struct field: absent or null keeps the nil slice. -/
def decodeStrListField (fs : List (String × Json)) (key : String) :
    Option (List String) :=
  match getField fs key with
  | none => some []
  | some Json.null => some []
  | some (Json.arr items) => decodeStrItems items
  | some _ => none

/-! Error normalisation (`types.go` `ErrorResponse`, `client.go`
`parseErrorResponse`, `truncate`). -/

/-- The `ErrorResponse` struct of `types.go`. -/
structure ErrorResponse where
  message : String
  code : Int
  errors : List String
deriving DecidableEq

/-- Unmarshal a body into `ErrorResponse`. -/
def decodeErrorResponse (b : Body) : Option ErrorResponse :=
  match b.json with
  | none => none
  | some Json.null => some ⟨"", 0, []⟩
  | some (Json.obj fs) =>
      match decodeStrField fs "message", decodeIntField fs "code",
          decodeStrListField fs "errors" with
      | some m, some c, some e => some ⟨m, c, e⟩
      | _, _, _ => none
  | some _ => none

/-- The `truncate` helper of `client.go` (character counts stand in for Go's
byte counts; the two agree on ASCII bodies). -/
def truncate (s : String) (max : Nat) : String :=
  if s.length ≤ max then s else String.mk (s.data.take max) ++ "..."

/-- Rendering of a `[]string` by Go's `%v` verb: space-separated, bracketed. -/
def spaceJoin : List String → String
  | [] => ""
  | [s] => s
  | s :: rest => s ++ " " ++ spaceJoin rest

/-- Go `fmt.Sprintf("%v", xs)` for a string slice. -/
def renderStrList (xs : List String) : String :=
  "[" ++ spaceJoin xs ++ "]"

/-- The `Error()` method of `*ErrorResponse` in `types.go`. -/
def ErrorResponse.render (e : ErrorResponse) : String :=
  if 0 < e.errors.length then
    "OpsGenie API error " ++ toString e.code ++ ": " ++ e.message ++
      " (details: " ++ renderStrList e.errors ++ ")"
  else
    "OpsGenie API error " ++ toString e.code ++ ": " ++ e.message

/-- Error value produced by `parseErrorResponse`: either the structured
`*ErrorResponse`, or the generic formatted error. -/
inductive ApiError where
  | structured (e : ErrorResponse)
  | generic (status : Nat) (bodyRaw : String)
deriving DecidableEq

/-- Rendered message of an `ApiError`. -/
def ApiError.render : ApiError → String
  | ApiError.structured e => e.render
  | ApiError.generic status bodyRaw =>
      "API error (status " ++ toString status ++ "): " ++ truncate bodyRaw 500

/-- The `parseErrorResponse` function of `client.go`: use the structured error
when the body parses and carries a non-empty message, overriding its code with
the actual HTTP status; otherwise fall back to the generic error. -/
def parseErrorResponse (statusCode : Nat) (body : Body) : ApiError :=
  match decodeErrorResponse body with
  | some er =>
      if er.message = "" then ApiError.generic statusCode body.raw
      else ApiError.structured ⟨er.message, Int.ofNat statusCode, er.errors⟩
  | none => ApiError.generic statusCode body.raw

/-! Async request polling (`client.go` `pollRequestResult`,
`types.go` `RequestResult`). -/

/-- The `RequestResult` struct of `types.go`. -/
structure RequestResult where
  isSuccess : Bool
  status : String
  alertID : String
  aliasName : String
deriving DecidableEq

/-- Zero value of `RequestResult`. -/
def requestResultZero : RequestResult := ⟨false, "", "", ""⟩

/-- Unmarshal a JSON value into `RequestResult`. -/
def decodeRequestResult : Json → Option RequestResult
  | Json.null => some requestResultZero
  | Json.obj fs =>
      match decodeBoolField fs "isSuccess", decodeStrField fs "status",
          decodeStrField fs "alertId", decodeStrField fs "alias" with
      | some i, some s, some a, some al => some ⟨i, s, a, al⟩
      | _, _, _, _ => none
  | _ => none

/-- Unmarshal a poll body into the anonymous `struct { Data RequestResult }`
envelope of `pollRequestResult`. -/
def decodeStatusEnvelope (b : Body) : Option RequestResult :=
  match b.json with
  | none => none
  | some Json.null => some requestResultZero
  | some (Json.obj fs) =>
      match getField fs "data" with
      | none => some requestResultZero
      | some j => decodeRequestResult j
  | some _ => none

/-- Unmarshal a 202 body into the anonymous
`struct { RequestID string; Result string }` of `pollRequestResult`,
returning the `requestId` field.  `none` models a non-nil unmarshal error,
which the source treats the same way as an empty `requestId`. -/
def decodeAsyncResp (b : Body) : Option String :=
  match b.json with
  | none => none
  | some Json.null => some ""
  | some (Json.obj fs) =>
      match decodeStrField fs "requestId", decodeStrField fs "result" with
      | some reqId, some _ => some reqId
      | _, _ => none
  | some _ => none

/-- Outcome of one logical operation, one constructor per `return` site of
the source (error messages are reconstructed by `Outcome.render`). -/
inductive Outcome where
  | ok
  | transportErr (msg : String)
  | apiErr (e : ApiError)
  | parseResponseErr
  | retriesExceeded (lastErr : Option String)
  | pollTransportErr (requestId : String) (msg : String)
  | parsePollErr
  | asyncFailed (requestId : String) (state : String)
  | pollTimeout (requestId : String)
  | paginationRateLimited
  | parsePageErr
  | decodeCombinedErr
  | outOfFuel
deriving DecidableEq

/-- Rendered error message of an outcome, following the `fmt.Errorf` format
strings of the source (`outOfFuel` is a model artifact of the pagination
walker's fuel and corresponds to no return site). -/
def Outcome.render : Outcome → String
  | Outcome.ok => ""
  | Outcome.transportErr msg => msg
  | Outcome.apiErr e => e.render
  | Outcome.parseResponseErr => "parse response"
  | Outcome.retriesExceeded lastErr =>
      "exceeded " ++ toString maxRetries ++ " retries: " ++ lastErr.getD ""
  | Outcome.pollTransportErr reqId msg => "poll request " ++ reqId ++ ": " ++ msg
  | Outcome.parsePollErr => "parse poll response"
  | Outcome.asyncFailed reqId state => "async request " ++ reqId ++ " " ++ state
  | Outcome.pollTimeout reqId =>
      "timed out waiting for async request " ++ reqId ++ " after " ++
        toString maxPollDuration ++ "s"
  | Outcome.paginationRateLimited => "rate limited during pagination"
  | Outcome.parsePageErr => "parse page"
  | Outcome.decodeCombinedErr => "decode combined results"
  | Outcome.outOfFuel => ""

/-- Trace of one logical operation: the `(method, path)` of every transport
invocation in order, every sleep duration in order, the outcome, and the JSON
value delivered to the caller's result target (if any). -/
structure Trace where
  requests : List (String × String)
  sleeps : List Nat
  outcome : Outcome
  result : Option Json

/-- The sentinel error recorded by `do` on a 429 response. -/
def rateLimitedMsg : String := "rate limited (429)"

/-- Path of the poll endpoint for a request id. -/
def pollPath (requestId : String) : String := "/v2/alerts/requests/" ++ requestId

/-- Best-effort decode of a body into the result target, as performed by the
swallowed `_ = json.Unmarshal(...)` calls of `pollRequestResult`: the target
is populated exactly when a target is present and the decode succeeds. -/
def bestEffortDecode (tgt : Tgt) (b : Body) : Option Json :=
  match tgt with
  | none => none
  | some accepts =>
      match b.json with
      | some j => if accepts j then some j else none
      | none => none

/-- Immediate-success handling of a 202 body with no usable `requestId`:
best-effort decode of the body into the target when a target was supplied and
the body is non-empty. -/
def immediateAccept (body : Body) (tgt : Tgt) : Trace :=
  ⟨[], [], Outcome.ok, if 0 < body.raw.length then bestEffortDecode tgt body else none⟩

/-- Polling loop of `pollRequestResult`.  The source loops
`for time.Now().Before(deadline)`, sleeping `pollInterval` (1 unit) at the top
of each iteration; since requests are instantaneous in the model's clock, the
loop is driven by `remaining = maxPollDuration - clock`, which starts at
`maxPollDuration` and decreases by one per iteration; `remaining = 0` is
exactly the deadline being reached, returning the timeout error.  `k` indexes
the environment at the next transport invocation. -/
def pollLoop (env : Env) (reqId : String) (tgt : Tgt) (k : Nat) : Nat → Trace
  | 0 => ⟨[], [], Outcome.pollTimeout reqId, none⟩
  | remaining + 1 =>
    let req := ("GET", pollPath reqId)
    match env k with
    | TResult.err msg => ⟨[req], [pollInterval], Outcome.pollTransportErr reqId msg, none⟩
    | TResult.ok status body =>
      if status < 200 ∨ 300 ≤ status then
        ⟨[req], [pollInterval], Outcome.apiErr (parseErrorResponse status body), none⟩
      else
        match decodeStatusEnvelope body with
        | none => ⟨[req], [pollInterval], Outcome.parsePollErr, none⟩
        | some st =>
          if st.isSuccess then
            ⟨[req], [pollInterval], Outcome.ok, bestEffortDecode tgt body⟩
          else if st.status = "failed" ∨ st.status = "cancelled" then
            ⟨[req], [pollInterval], Outcome.asyncFailed reqId st.status, none⟩
          else
            let t := pollLoop env reqId tgt (k + 1) remaining
            ⟨req :: t.requests, pollInterval :: t.sleeps, t.outcome, t.result⟩

/-- The `pollRequestResult` function of `client.go`: extract a `requestId`
from the 202 body; treat an unparseable body or an empty id as immediate
success; otherwise poll until a terminal state or the deadline. -/
def pollRequestResult (env : Env) (k : Nat) (body : Body) (tgt : Tgt) : Trace :=
  match decodeAsyncResp body with
  | none => immediateAccept body tgt
  | some reqId =>
      if reqId = "" then immediateAccept body tgt
      else pollLoop env reqId tgt k maxPollDuration

/-- Whether the success-body handling of `do` (steps after the status checks)
delivers the response: either no result target was supplied, or the body is
empty, or the body decodes into the target.  Exactly in these cases `do`
returns success rather than the fatal "parse response" error. -/
def successBodyDeliverable (tgt : Tgt) (body : Body) : Bool :=
  match tgt with
  | none => true
  | some accepts =>
      if body.raw.length = 0 then true
      else
        match body.json with
        | some j => accepts j
        | none => false

/-- Retry loop of `do`.  The source iterates
`for attempt := 0; attempt <= maxRetries; attempt++`; the model recurses on
`remaining = maxRetries + 1 - attempt`, so `remaining = 0` is exactly the
loop exiting with the "exceeded retries" error.  On each iteration: when
`attempt > 0`, sleep the current backoff and double it; then issue the
request (`env attempt` — one transport invocation per iteration, so the
attempt number indexes the environment) and dispatch on the status exactly as
the source does: transport error fatal, 429 records the sentinel and loops,
202 hands off to the poller with the next environment index, non-2xx is
normalised, then the success body is decoded if needed. -/
def doLoop (env : Env) (method path : String) (tgt : Tgt)
    (attempt backoff : Nat) (lastErr : Option String) : Nat → Trace
  | 0 => ⟨[], [], Outcome.retriesExceeded lastErr, none⟩
  | remaining + 1 =>
    let preSleeps : List Nat := if attempt = 0 then [] else [backoff]
    let nextBackoff : Nat := if attempt = 0 then backoff else backoff * 2
    let prepend : Trace → Trace := fun t =>
      ⟨(method, path) :: t.requests, preSleeps ++ t.sleeps, t.outcome, t.result⟩
    match env attempt with
    | TResult.err msg => prepend ⟨[], [], Outcome.transportErr msg, none⟩
    | TResult.ok status body =>
      if status = 429 then
        prepend (doLoop env method path tgt (attempt + 1) nextBackoff
          (some rateLimitedMsg) remaining)
      else if status = 202 then
        prepend (pollRequestResult env (attempt + 1) body tgt)
      else if status < 200 ∨ 300 ≤ status then
        prepend ⟨[], [], Outcome.apiErr (parseErrorResponse status body), none⟩
      else if tgt.isNone ∨ body.raw.length = 0 then
        prepend ⟨[], [], Outcome.ok, none⟩
      else
        match tgt, body.json with
        | some accepts, some j =>
            if accepts j then prepend ⟨[], [], Outcome.ok, some j⟩
            else prepend ⟨[], [], Outcome.parseResponseErr, none⟩
        | _, _ =>
            -- only reachable with `tgt = some _` and an unparseable body:
            -- `json.Unmarshal` fails, "parse response"
            prepend ⟨[], [], Outcome.parseResponseErr, none⟩

/-- The `do` method of `client.go`: the retry loop entered at attempt 0 with
a 1-unit backoff and no recorded error. -/
def execDo (env : Env) (method path : String) (tgt : Tgt) : Trace :=
  doLoop env method path tgt 0 1 none (maxRetries + 1)

/-- The public `Get` operation. -/
def getOp (env : Env) (path : String) (tgt : Tgt) : Trace := execDo env "GET" path tgt

/-- The public `Post` operation. -/
def postOp (env : Env) (path : String) (tgt : Tgt) : Trace := execDo env "POST" path tgt

/-- The public `Put` operation. -/
def putOp (env : Env) (path : String) (tgt : Tgt) : Trace := execDo env "PUT" path tgt

/-- The public `Patch` operation. -/
def patchOp (env : Env) (path : String) (tgt : Tgt) : Trace := execDo env "PATCH" path tgt

/-- The public `Delete` operation. -/
def deleteOp (env : Env) (path : String) (tgt : Tgt) : Trace := execDo env "DELETE" path tgt

/-! Pagination (`client.go` `ListAll` and the `pageEnvelope` / `Paging`
types). -/

/-- The `Paging` struct of `types.go`. -/
structure Paging where
  first : String
  next : String
  prev : String
  last : String
deriving DecidableEq

/-- Unmarshal a JSON value into `*Paging` (null keeps the nil pointer). -/
def decodePaging : Json → Option (Option Paging)
  | Json.null => some none
  | Json.obj fs =>
      match decodeStrField fs "first", decodeStrField fs "next",
          decodeStrField fs "prev", decodeStrField fs "last" with
      | some f, some n, some p, some l => some (some ⟨f, n, p, l⟩)
      | _, _, _, _ => none
  | _ => none

/-- The `pageEnvelope` of `ListAll`: the raw `data` value (`none` when the
field is absent, mirroring a nil `json.RawMessage`) and the optional paging
block. -/
structure PageEnv where
  data : Option Json
  paging : Option Paging

/-- Unmarshal a page body into `pageEnvelope`. -/
def decodePageEnvelope (b : Body) : Option PageEnv :=
  match b.json with
  | none => none
  | some Json.null => some ⟨none, none⟩
  | some (Json.obj fs) =>
      match getField fs "paging" with
      | none => some ⟨getField fs "data", none⟩
      | some j =>
          match decodePaging j with
          | none => none
          | some pg => some ⟨getField fs "data", pg⟩
  | some _ => none

/-- Extraction of `parsed.Path + "?" + parsed.RawQuery` from a `next` URL via
`url.Parse`: drop a `scheme://host` prefix when present, then split the rest
at the first `?`.  Modelled for the well-formed URLs the walker receives;
`url.Parse` failures (control characters, malformed escapes) are not
produced, so the properties below take the parse result as a hypothesis. -/
def afterSchemeAux : List Char → Option (List Char)
  | ':' :: '/' :: '/' :: rest => some rest
  | _ :: rest => afterSchemeAux rest
  | [] => none

/-- Drop the host portion: keep everything from the first `/` on. -/
def fromFirstSlash : List Char → List Char
  | [] => []
  | '/' :: rest => '/' :: rest
  | _ :: rest => fromFirstSlash rest

/-- Split a character list at the first `?`. -/
def splitAtQuestion : List Char → List Char × List Char
  | [] => ([], [])
  | '?' :: rest => ([], rest)
  | c :: rest =>
      let pq := splitAtQuestion rest
      (c :: pq.1, pq.2)

/-- Path and raw query of a `next` URL (see `afterSchemeAux`). -/
def parseURLPathQuery (u : String) : Option (String × String) :=
  match afterSchemeAux u.data with
  | some rest =>
      let pq := splitAtQuestion (fromFirstSlash rest)
      some (String.mk pq.1, String.mk pq.2)
  | none =>
      let pq := splitAtQuestion u.data
      some (String.mk pq.1, String.mk pq.2)

/-- First value of a key in `url.Values` (empty string when absent). -/
def paramsGet : List (String × String) → String → String
  | [], _ => ""
  | (k, v) :: rest, key => if k = key then v else paramsGet rest key

/-- Set a key in `url.Values` (replace existing values, else append). -/
def paramsSet (ps : List (String × String)) (key value : String) :
    List (String × String) :=
  if ps.any fun p => p.1 == key then
    ps.map fun p => if p.1 == key then (key, value) else p
  else ps ++ [(key, value)]

/-- Encoding of `url.Values` into a query string (Go's key sorting and
percent-escaping are not modelled; no property depends on the encoding). -/
def encodeParams : List (String × String) → String
  | [] => ""
  | [(k, v)] => k ++ "=" ++ v
  | (k, v) :: rest => k ++ "=" ++ v ++ "&" ++ encodeParams rest

/-- Outcome of the pagination loop: the concatenated raw items of all pages,
or a failure. -/
inductive PagesOut where
  | pages (items : List Json)
  | failed (o : Outcome)

/-- Trace of the pagination loop: requests issued and its outcome.  The loop
performs no sleeps. -/
structure WalkTrace where
  requests : List (String × String)
  out : PagesOut

/-- Pagination loop of `ListAll`.  The source loops `for nextPath != ""`; the
model checks the emptiness of the freshly computed cursor before recursing,
which is equivalent because the initial cursor `path + "?" + params` is never
empty.  Each iteration issues a plain `doRequest` GET (no retry wrapper, no
sleeps): a 429 or any other non-2xx aborts the walk; otherwise the page
envelope is decoded, its `data` is appended (array elements individually,
any other present value as a single item), and the `next` link — when present
and non-empty — becomes the new cursor.  `fuel` bounds the number of pages in
the model only; every terminating walk is reproduced with enough fuel. -/
def listAllLoop (env : Env) (k : Nat) (nextPath : String) : Nat → WalkTrace
  | 0 => ⟨[], PagesOut.failed Outcome.outOfFuel⟩
  | fuel + 1 =>
    let req := ("GET", nextPath)
    match env k with
    | TResult.err msg => ⟨[req], PagesOut.failed (Outcome.transportErr msg)⟩
    | TResult.ok status body =>
      if status = 429 then ⟨[req], PagesOut.failed Outcome.paginationRateLimited⟩
      else if status < 200 ∨ 300 ≤ status then
        ⟨[req], PagesOut.failed (Outcome.apiErr (parseErrorResponse status body))⟩
      else
        match decodePageEnvelope body with
        | none => ⟨[req], PagesOut.failed Outcome.parsePageErr⟩
        | some page =>
          let pageItems : List Json :=
            match page.data with
            | none => []
            | some (Json.arr items) => items
            | some j => [j]
          let nextPath2 : String :=
            match page.paging with
            | none => ""
            | some pg =>
              if pg.next = "" then ""
              else
                match parseURLPathQuery pg.next with
                | none => ""
                | some pq => pq.1 ++ "?" ++ pq.2
          if nextPath2 = "" then ⟨[req], PagesOut.pages pageItems⟩
          else
            let t := listAllLoop env (k + 1) nextPath2 fuel
            ⟨req :: t.requests,
              match t.out with
              | PagesOut.pages items => PagesOut.pages (pageItems ++ items)
              | PagesOut.failed o => PagesOut.failed o⟩

/-- The `ListAll` method of `client.go`: inject the default page size when
absent, walk the pages from `path + "?" + params`, then marshal the combined
items as one JSON array and decode it into the result target (a nil target
makes `json.Unmarshal` fail, as in Go). -/
def listAll (env : Env) (path : String) (params : List (String × String))
    (tgt : Tgt) (fuel : Nat) : Trace :=
  let ps := if paramsGet params "limit" = "" then paramsSet params "limit" "100" else params
  let w := listAllLoop env 0 (path ++ "?" ++ encodeParams ps) fuel
  match w.out with
  | PagesOut.failed o => ⟨w.requests, [], o, none⟩
  | PagesOut.pages items =>
      match tgt with
      | none => ⟨w.requests, [], Outcome.decodeCombinedErr, none⟩
      | some accepts =>
          if accepts (Json.arr items) then
            ⟨w.requests, [], Outcome.ok, some (Json.arr items)⟩
          else ⟨w.requests, [], Outcome.decodeCombinedErr, none⟩

/-! Theorems. -/

/-- Concatenating a query onto a path with `?` never yields the empty string,
so a successfully parsed `next` link always continues the walk. -/
lemma pathQuery_ne_empty (p q : String) : p ++ "?" ++ q ≠ "" := by
  intro h
  have h2 := congrArg String.length h
  simp only [String.length_append] at h2
  have h3 : ("?" : String).length = 1 := rfl
  have h4 : ("" : String).length = 0 := rfl
  omega

/-- **C3** (confirmed): on any iteration of the retry loop (`remaining` is the
number of attempts the loop will still admit, positive on every reachable
iteration), a transport-level failure reported by the transport primitive is
returned immediately: exactly one request is issued, the transport error is
surfaced unchanged, no further attempts are made, and no sleep follows it
(the only sleep of the iteration is the backoff that preceded the failing
attempt, present exactly when the attempt retries a 429).  Since the public
operations enter the loop at attempt 0 via `execDo`, network failures are
never retried by the retry wrapper. -/
theorem transport_failure_is_fatal (env : Env) (m p : String) (tgt : Tgt)
    (attempt backoff : Nat) (lastErr : Option String) (r : Nat) (msg : String)
    (henv : env attempt = TResult.err msg) :
    doLoop env m p tgt attempt backoff lastErr (r + 1) =
      ⟨[(m, p)], if attempt = 0 then [] else [backoff], Outcome.transportErr msg, none⟩ := by
  simp only [doLoop, henv]
  cases Nat.decEq attempt 0 <;> simp_all

/-- Witness for `transport_failure_is_fatal`: a connection failure on the very
first attempt of a `Get` is fatal with a single transport invocation. -/
theorem transport_failure_is_fatal_witness :
    execDo (fun _ => TResult.err "connection refused") "GET" "/v2/alerts" none =
      ⟨[("GET", "/v2/alerts")], [], Outcome.transportErr "connection refused", none⟩ :=
  transport_failure_is_fatal (fun _ => TResult.err "connection refused")
    "GET" "/v2/alerts" none 0 1 none maxRetries "connection refused" rfl

/-- **C2** (confirmed): against four consecutive 429 responses (any bodies),
every public operation makes exactly 4 transport attempts (no fifth), sleeps
1, 2, 4 units between them, and fails with the "exceeded 3 retries" error
wrapping the recorded rate-limit sentinel; the rendered message mentions
"retries". -/
theorem rate_limit_exhaustion (env : Env) (bodies : Nat → Body) (m p : String)
    (tgt : Tgt) (h429 : ∀ i, i < 4 → env i = TResult.ok 429 (bodies i)) :
    execDo env m p tgt =
      ⟨[(m, p), (m, p), (m, p), (m, p)], [1, 2, 4],
        Outcome.retriesExceeded (some rateLimitedMsg), none⟩ ∧
    (execDo env m p tgt).outcome.render = "exceeded 3 retries: rate limited (429)" ∧
    ∃ pre post, (execDo env m p tgt).outcome.render = pre ++ "retries" ++ post := by
  have h0 := h429 0 (by omega)
  have h1 := h429 1 (by omega)
  have h2 := h429 2 (by omega)
  have h3 := h429 3 (by omega)
  have htrace : execDo env m p tgt =
      ⟨[(m, p), (m, p), (m, p), (m, p)], [1, 2, 4],
        Outcome.retriesExceeded (some rateLimitedMsg), none⟩ := by
    show doLoop env m p tgt 0 1 none (0 + 1 + 1 + 1 + 1) = _
    simp only [doLoop, h0, h1, h2, h3]
    norm_num
  refine ⟨htrace, ?_, "exceeded 3 ", ": rate limited (429)", ?_⟩ <;>
    rw [htrace] <;> rfl

/-- Witness for `rate_limit_exhaustion`: a server that always answers 429 with
an empty body exhausts the retries of a `Get`. -/
theorem rate_limit_exhaustion_witness :
    execDo (fun _ => TResult.ok 429 emptyBody) "GET" "/v2/alerts" none =
      ⟨[("GET", "/v2/alerts"), ("GET", "/v2/alerts"), ("GET", "/v2/alerts"),
        ("GET", "/v2/alerts")], [1, 2, 4],
        Outcome.retriesExceeded (some rateLimitedMsg), none⟩ :=
  (rate_limit_exhaustion (fun _ => TResult.ok 429 emptyBody) (fun _ => emptyBody)
    "GET" "/v2/alerts" none (fun _ _ => rfl)).1

/-- Environment refuting C1's success conclusion: a single 200 response whose
body is not valid JSON. -/
def cexBadJsonEnv : Env := fun _ => TResult.ok 200 ⟨"not json", none⟩

/-- Result target accepting every JSON value. -/
def allAccept : Tgt := some fun _ => true

/-- A 202 body carrying `requestId = "r1"`. -/
def asyncBody : Body :=
  ⟨"\x7b\"requestId\":\"r1\"\x7d", some (Json.obj [("requestId", Json.str "r1")])⟩

/-- A poll body reporting `isSuccess = true`. -/
def pollSuccessBody : Body :=
  ⟨"\x7b\"data\":\x7b\"isSuccess\":true\x7d\x7d",
   some (Json.obj [("data", Json.obj [("isSuccess", Json.bool true)])])⟩

/-- Environment refuting C1's invocation-count conclusion: a 202 response
carrying a requestId, whose poll immediately succeeds. -/
def cexAsyncEnv : Env := fun k =>
  if k = 0 then TResult.ok 202 asyncBody else TResult.ok 200 pollSuccessBody

/-- **C1** (counterexample): two executions meet the claim's premise — N = 0
consecutive 429 responses followed by a 2xx response — and violate its
conclusion.  Against a 200 whose body is not valid JSON, with a result target
supplied, the operation fails with the "parse response" error instead of
succeeding (consuming exactly N + 1 = 1 response).  Against a 202 (a 2xx
status) whose body carries a requestId, the operation succeeds but invokes
the transport primitive twice — the poll is a further transport invocation —
not exactly N + 1 = 1 times. -/
theorem retry_success_counterexample :
    ((execDo cexBadJsonEnv "GET" "/v2/alerts" allAccept).outcome =
        Outcome.parseResponseErr ∧
      Outcome.parseResponseErr ≠ Outcome.ok ∧
      (execDo cexBadJsonEnv "GET" "/v2/alerts" allAccept).requests.length = 0 + 1) ∧
    ((execDo cexAsyncEnv "POST" "/v2/alerts" none).outcome = Outcome.ok ∧
      (execDo cexAsyncEnv "POST" "/v2/alerts" none).requests.length = 2 ∧
      (2 : Nat) ≠ 0 + 1) := by
  refine ⟨⟨?_, ?_, ?_⟩, ?_, ?_, ?_⟩ <;> decide

/-- **C1** (amended, confirmed): against N ≤ 3 consecutive 429 responses
followed by a 2xx response, provided the final response is not a 202
(async-accepted) and its body is deliverable to the caller (no result target,
or an empty body, or a body that decodes into the target), the operation
succeeds, the transport primitive is invoked exactly N + 1 times, and the
sleeps inserted before the retries strictly double starting at 1 time
unit. -/
theorem retry_success_amended (env : Env) (bodies : Nat → Body) (m p : String)
    (tgt : Tgt) (N s : Nat) (fb : Body)
    (hN : N ≤ 3)
    (h429 : ∀ i, i < N → env i = TResult.ok 429 (bodies i))
    (hfin : env N = TResult.ok s fb)
    (hs1 : 200 ≤ s) (hs2 : s < 300) (hs3 : s ≠ 202)
    (hdel : successBodyDeliverable tgt fb = true) :
    (execDo env m p tgt).outcome = Outcome.ok ∧
    (execDo env m p tgt).requests.length = N + 1 ∧
    (execDo env m p tgt).sleeps = (List.range N).map fun i => 2 ^ i := by
  have hne429 : s ≠ 429 := by omega
  have hrange : ¬(s < 200 ∨ 300 ≤ s) := by omega
  have hfuel : (maxRetries + 1 : Nat) = 0 + 1 + 1 + 1 + 1 := rfl
  interval_cases N
  · rw [show ((List.range 0).map fun i => (2:Nat) ^ i) = [] from by decide]
    simp only [execDo, hfuel]
    rcases tgt with _ | accepts
    · simp [doLoop, hfin, hne429, hs3, hrange]
    · by_cases hlen : fb.raw.length = 0
      · simp [doLoop, hfin, hne429, hs3, hrange, hlen]
      · have hdel2 := hdel
        simp only [successBodyDeliverable] at hdel2
        rw [if_neg hlen] at hdel2
        rcases hj : fb.json with _ | j
        · rw [hj] at hdel2; exact absurd hdel2 (by simp)
        · rw [hj] at hdel2
          have hacc : accepts j = true := hdel2
          simp [doLoop, hfin, hne429, hs3, hrange, hlen, hj, hacc]
  · have h0 := h429 0 (by omega)
    rw [show ((List.range 1).map fun i => (2:Nat) ^ i) = [1] from by decide]
    simp only [execDo, hfuel]
    rcases tgt with _ | accepts
    · simp [doLoop, h0, hfin, hne429, hs3, hrange]
    · by_cases hlen : fb.raw.length = 0
      · simp [doLoop, h0, hfin, hne429, hs3, hrange, hlen]
      · have hdel2 := hdel
        simp only [successBodyDeliverable] at hdel2
        rw [if_neg hlen] at hdel2
        rcases hj : fb.json with _ | j
        · rw [hj] at hdel2; exact absurd hdel2 (by simp)
        · rw [hj] at hdel2
          have hacc : accepts j = true := hdel2
          simp [doLoop, h0, hfin, hne429, hs3, hrange, hlen, hj, hacc]
  · have h0 := h429 0 (by omega)
    have h1 := h429 1 (by omega)
    rw [show ((List.range 2).map fun i => (2:Nat) ^ i) = [1, 2] from by decide]
    simp only [execDo, hfuel]
    rcases tgt with _ | accepts
    · simp [doLoop, h0, h1, hfin, hne429, hs3, hrange]
    · by_cases hlen : fb.raw.length = 0
      · simp [doLoop, h0, h1, hfin, hne429, hs3, hrange, hlen]
      · have hdel2 := hdel
        simp only [successBodyDeliverable] at hdel2
        rw [if_neg hlen] at hdel2
        rcases hj : fb.json with _ | j
        · rw [hj] at hdel2; exact absurd hdel2 (by simp)
        · rw [hj] at hdel2
          have hacc : accepts j = true := hdel2
          simp [doLoop, h0, h1, hfin, hne429, hs3, hrange, hlen, hj, hacc]
  · have h0 := h429 0 (by omega)
    have h1 := h429 1 (by omega)
    have h2 := h429 2 (by omega)
    rw [show ((List.range 3).map fun i => (2:Nat) ^ i) = [1, 2, 4] from by decide]
    simp only [execDo, hfuel]
    rcases tgt with _ | accepts
    · simp [doLoop, h0, h1, h2, hfin, hne429, hs3, hrange]
    · by_cases hlen : fb.raw.length = 0
      · simp [doLoop, h0, h1, h2, hfin, hne429, hs3, hrange, hlen]
      · have hdel2 := hdel
        simp only [successBodyDeliverable] at hdel2
        rw [if_neg hlen] at hdel2
        rcases hj : fb.json with _ | j
        · rw [hj] at hdel2; exact absurd hdel2 (by simp)
        · rw [hj] at hdel2
          have hacc : accepts j = true := hdel2
          simp [doLoop, h0, h1, h2, hfin, hne429, hs3, hrange, hlen, hj, hacc]

/-- Witness for `retry_success_amended`: two 429s followed by a plain 200
with an empty body and no result target. -/
theorem retry_success_amended_witness :
    (execDo (fun k => if k < 2 then TResult.ok 429 emptyBody else TResult.ok 200 emptyBody)
        "GET" "/v2/alerts" none).outcome = Outcome.ok ∧
    (execDo (fun k => if k < 2 then TResult.ok 429 emptyBody else TResult.ok 200 emptyBody)
        "GET" "/v2/alerts" none).requests.length = 2 + 1 ∧
    (execDo (fun k => if k < 2 then TResult.ok 429 emptyBody else TResult.ok 200 emptyBody)
        "GET" "/v2/alerts" none).sleeps = (List.range 2).map fun i => 2 ^ i :=
  retry_success_amended
    (fun k => if k < 2 then TResult.ok 429 emptyBody else TResult.ok 200 emptyBody)
    (fun _ => emptyBody) "GET" "/v2/alerts" none 2 200 emptyBody
    (by decide) (fun i hi => by interval_cases i <;> rfl) rfl
    (by decide) (by decide) (by decide) rfl

/-- **C7** (confirmed): on any iteration of the polling loop (any positive
`remaining`, i.e. any instant before the deadline), if the poll response is a
2xx whose body decodes to a status envelope with `isSuccess = false` and a
terminal `status` of `"failed"` or `"cancelled"`, the poller fails
immediately: the iteration issues only that one poll GET, no further poll
call is made, and the error message names both the requestId and the terminal
state.  The final conjunct ties the loop to the operation: for every
202-accepted operation whose body carries a non-empty requestId, the
operation's outcome is exactly the poll loop's outcome, so the terminal
failure is the operation's failure. -/
theorem poll_terminal_failure (env : Env) (reqId : String) (tgt : Tgt)
    (k r status : Nat) (body : Body) (st : RequestResult)
    (henv : env k = TResult.ok status body)
    (hs1 : 200 ≤ status) (hs2 : status < 300)
    (hdec : decodeStatusEnvelope body = some st)
    (hfail : st.isSuccess = false)
    (hterm : st.status = "failed" ∨ st.status = "cancelled") :
    pollLoop env reqId tgt k (r + 1) =
      ⟨[("GET", pollPath reqId)], [pollInterval],
        Outcome.asyncFailed reqId st.status, none⟩ ∧
    (Outcome.asyncFailed reqId st.status).render =
      "async request " ++ reqId ++ " " ++ st.status ∧
    (∀ (env2 : Env) (m p : String) (tgt2 : Tgt) (b2 : Body) (rid : String),
      env2 0 = TResult.ok 202 b2 → decodeAsyncResp b2 = some rid → rid ≠ "" →
      (execDo env2 m p tgt2).outcome =
        (pollLoop env2 rid tgt2 1 maxPollDuration).outcome) := by
  have hrange : ¬(status < 200 ∨ 300 ≤ status) := by omega
  refine ⟨by simp [pollLoop, henv, hdec, hrange, hfail, hterm], rfl, ?_⟩
  intro env2 m p tgt2 b2 rid h1 h2 h3
  show (doLoop env2 m p tgt2 0 1 none (maxRetries + 1)).outcome = _
  simp [doLoop, h1, pollRequestResult, h2, h3]

/-- A poll body reporting a terminal `status = "failed"`. -/
def pollFailedBody : Body :=
  ⟨"\x7b\"data\":\x7b\"isSuccess\":false,\"status\":\"failed\"\x7d\x7d",
   some (Json.obj [("data", Json.obj
     [("isSuccess", Json.bool false), ("status", Json.str "failed")])])⟩

/-- Environment of a 202-accepted operation whose first poll answers the
terminal `status = "failed"`. -/
def pollFailEnv : Env := fun k =>
  if k = 0 then TResult.ok 202 asyncBody else TResult.ok 200 pollFailedBody

/-- Witness for `poll_terminal_failure`: the first poll for requestId `r1`
answers `status = "failed"`, and the outcome of a 202-accepted `POST`
polling that answer is the poll loop's outcome. -/
theorem poll_terminal_failure_witness :
    pollLoop (fun _ => TResult.ok 200 pollFailedBody) "r1" none 1 maxPollDuration =
      ⟨[("GET", pollPath "r1")], [pollInterval], Outcome.asyncFailed "r1" "failed", none⟩ ∧
    (Outcome.asyncFailed "r1" "failed").render = "async request r1 failed" ∧
    (execDo pollFailEnv "POST" "/v2/alerts" none).outcome =
      (pollLoop pollFailEnv "r1" none 1 maxPollDuration).outcome := by
  obtain ⟨h1, h2, h3⟩ :=
    poll_terminal_failure (fun _ => TResult.ok 200 pollFailedBody) "r1" none 1 29 200
      pollFailedBody ⟨false, "failed", "", ""⟩ rfl (by decide) (by decide) rfl rfl
      (Or.inl rfl)
  exact ⟨h1, h2, h3 pollFailEnv "POST" "/v2/alerts" none asyncBody "r1" rfl rfl (by decide)⟩

/-- **C8** (confirmed): when an operation's first response is a 202 whose
body lacks a usable `requestId` — its JSON decode fails or the field is
empty/absent — the operation returns success immediately with zero poll
calls (the 202 itself is the only transport invocation) and zero sleeps,
regardless of the result target; the best-effort decode of the 202 body into
the target never turns this into a failure (the outcome is `ok` even for a
target that rejects every value). -/
theorem accepted_without_request_id (env : Env) (m p : String) (body : Body)
    (tgt : Tgt) (henv : env 0 = TResult.ok 202 body)
    (h : decodeAsyncResp body = none ∨ decodeAsyncResp body = some "") :
    execDo env m p tgt =
      ⟨[(m, p)], [], Outcome.ok,
        if 0 < body.raw.length then bestEffortDecode tgt body else none⟩ := by
  show doLoop env m p tgt 0 1 none (maxRetries + 1) = _
  rcases h with h | h <;> simp [doLoop, henv, pollRequestResult, h, immediateAccept]

/-- Witness for `accepted_without_request_id`: a `POST` answered by a 202
whose body is not valid JSON, with a target supplied that would reject every
value, still succeeds with one transport call and zero polls. -/
theorem accepted_without_request_id_witness :
    execDo (fun _ => TResult.ok 202 ⟨"oops", none⟩) "POST" "/v2/alerts"
        (some fun _ => false) =
      ⟨[("POST", "/v2/alerts")], [], Outcome.ok,
        if 0 < (Body.mk "oops" none).raw.length
        then bestEffortDecode (some fun _ => false) ⟨"oops", none⟩ else none⟩ :=
  accepted_without_request_id (fun _ => TResult.ok 202 ⟨"oops", none⟩) "POST"
    "/v2/alerts" ⟨"oops", none⟩ (some fun _ => false) rfl (Or.inl rfl)

/-- Every request issued by the polling loop is a GET of the poll path of its
requestId, for any environment, target and remaining budget. -/
lemma pollLoop_requests_fixed (reqId : String) (tgt : Tgt) :
    ∀ (r : Nat) (env : Env) (k : Nat) (q : String × String),
      q ∈ (pollLoop env reqId tgt k r).requests → q = ("GET", pollPath reqId) := by
  intro r
  induction r with
  | zero => intro env k q hq; simp [pollLoop] at hq
  | succ n ih =>
    intro env k q hq
    simp only [pollLoop] at hq
    rcases henv : env k with msg | ⟨status, body⟩ <;> simp only [henv] at hq
    · simp at hq; simp [hq]
    · by_cases hrange : status < 200 ∨ 300 ≤ status
      · rw [if_pos hrange] at hq; simp at hq; simp [hq]
      · rw [if_neg hrange] at hq
        rcases hdec : decodeStatusEnvelope body with _ | st <;> simp only [hdec] at hq
        · simp at hq; simp [hq]
        · by_cases hsucc : st.isSuccess = true
          · rw [if_pos hsucc] at hq; simp at hq; simp [hq]
          · rw [if_neg hsucc] at hq
            by_cases hterm : st.status = "failed" ∨ st.status = "cancelled"
            · rw [if_pos hterm] at hq; simp at hq; simp [hq]
            · rw [if_neg hterm] at hq
              simp at hq
              rcases hq with hq | hq
              · simp [hq]
              · exact ih env (k + 1) q hq

/-- **C10** (confirmed): when the first response of an operation is a 202
whose body carries a non-empty requestId, every subsequent transport
invocation of the operation — i.e. every poll — is a GET of the fixed path
`"/v2/alerts/requests/" ++ requestId`, regardless of the method and path of
the original request. -/
theorem async_polls_fixed_path (env : Env) (m p : String) (tgt : Tgt)
    (body : Body) (reqId : String)
    (henv : env 0 = TResult.ok 202 body)
    (hid : decodeAsyncResp body = some reqId) (hne : reqId ≠ "") :
    (execDo env m p tgt).requests.head? = some (m, p) ∧
    ∀ q ∈ (execDo env m p tgt).requests.tail,
      q = ("GET", "/v2/alerts/requests/" ++ reqId) := by
  have hx : execDo env m p tgt =
      ⟨(m, p) :: (pollLoop env reqId tgt 1 maxPollDuration).requests,
        [] ++ (pollLoop env reqId tgt 1 maxPollDuration).sleeps,
        (pollLoop env reqId tgt 1 maxPollDuration).outcome,
        (pollLoop env reqId tgt 1 maxPollDuration).result⟩ := by
    show doLoop env m p tgt 0 1 none (maxRetries + 1) = _
    simp [doLoop, henv, pollRequestResult, hid, hne]
  rw [hx]
  exact ⟨rfl, fun q hq => pollLoop_requests_fixed reqId tgt maxPollDuration env 1 q hq⟩

/-- Witness for `async_polls_fixed_path`: a `DELETE` of an integration whose
202 carries requestId `r1`; every poll goes to the alerts request-status
endpoint. -/
theorem async_polls_fixed_path_witness :
    (execDo cexAsyncEnv "DELETE" "/v2/integrations/abc" none).requests.head? =
      some ("DELETE", "/v2/integrations/abc") ∧
    ∀ q ∈ (execDo cexAsyncEnv "DELETE" "/v2/integrations/abc" none).requests.tail,
      q = ("GET", "/v2/alerts/requests/" ++ "r1") :=
  async_polls_fixed_path cexAsyncEnv "DELETE" "/v2/integrations/abc" none
    asyncBody "r1" rfl rfl (by decide)

/-- **C6** (confirmed): a 429 on any page fetch aborts the entire pagination
walk immediately: the iteration that observes it issues exactly that one GET,
returns the fatal "rate limited during pagination" error, fetches no further
page and performs no backoff; moreover `ListAll` never sleeps at all, for any
environment — the walker drives the plain transport primitive, never the
retry wrapper. -/
theorem pagination_429_aborts :
    (∀ (env : Env) (k : Nat) (nextPath : String) (f : Nat) (body : Body),
        env k = TResult.ok 429 body →
        listAllLoop env k nextPath (f + 1) =
          ⟨[("GET", nextPath)], PagesOut.failed Outcome.paginationRateLimited⟩) ∧
    (∀ (env : Env) (path : String) (params : List (String × String)) (tgt : Tgt)
        (fuel : Nat), (listAll env path params tgt fuel).sleeps = []) := by
  constructor
  · intro env k nextPath f body henv
    simp [listAllLoop, henv]
  · intro env path params tgt fuel
    simp only [listAll]
    split
    · rfl
    · split
      · rfl
      · split <;> rfl

/-- Witness for `pagination_429_aborts`: a walk whose very first page fetch is
rate limited stops after that single GET, and the corresponding `ListAll`
performs no sleep. -/
theorem pagination_429_aborts_witness :
    listAllLoop (fun _ => TResult.ok 429 emptyBody) 0 "/v2/alerts?limit=100" 5 =
      ⟨[("GET", "/v2/alerts?limit=100")], PagesOut.failed Outcome.paginationRateLimited⟩ ∧
    (listAll (fun _ => TResult.ok 429 emptyBody) "/v2/alerts" [] none 5).sleeps = [] :=
  ⟨pagination_429_aborts.1 (fun _ => TResult.ok 429 emptyBody) 0
      "/v2/alerts?limit=100" 4 emptyBody rfl,
    pagination_429_aborts.2 (fun _ => TResult.ok 429 emptyBody) "/v2/alerts" [] none 5⟩

/-- **C4** (confirmed): a two-page walk whose first page returns
`data = [a, b]` with a parseable non-empty `next` link and whose second page
returns `data = [c]` with no paging block succeeds with result `[a, b, c]` —
page order and within-page source order preserved, never re-sorted — after
exactly 2 page fetches and no sleeps. -/
theorem two_page_walk (env : Env) (path : String)
    (params : List (String × String)) (accepts : Json → Bool)
    (a b c : Json) (nxt : String) (pq : String × String)
    (s1 s2 : Nat) (raw1 raw2 : String) (f : Nat)
    (henv0 : env 0 = TResult.ok s1 ⟨raw1, some (Json.obj
      [("data", Json.arr [a, b]), ("paging", Json.obj [("next", Json.str nxt)])])⟩)
    (hs1a : 200 ≤ s1) (hs1b : s1 < 300)
    (hnxt : nxt ≠ "") (hpq : parseURLPathQuery nxt = some pq)
    (henv1 : env 1 = TResult.ok s2 ⟨raw2, some (Json.obj [("data", Json.arr [c])])⟩)
    (hs2a : 200 ≤ s2) (hs2b : s2 < 300)
    (hacc : accepts (Json.arr [a, b, c]) = true) :
    (listAll env path params (some accepts) (f + 1 + 1)).outcome = Outcome.ok ∧
    (listAll env path params (some accepts) (f + 1 + 1)).result =
      some (Json.arr [a, b, c]) ∧
    (listAll env path params (some accepts) (f + 1 + 1)).requests.length = 2 ∧
    (listAll env path params (some accepts) (f + 1 + 1)).sleeps = [] := by
  have h1a : s1 ≠ 429 := by omega
  have h1r : ¬(s1 < 200 ∨ 300 ≤ s1) := by omega
  have h2a : s2 ≠ 429 := by omega
  have h2r : ¬(s2 < 200 ∨ 300 ≤ s2) := by omega
  have hne : pq.1 ++ "?" ++ pq.2 ≠ "" := pathQuery_ne_empty pq.1 pq.2
  simp [listAll, listAllLoop, henv0, henv1, h1a, h1r, h2a, h2r,
    decodePageEnvelope, decodePaging, decodeStrField, getField, hnxt, hpq, hne, hacc]

/-- First page of the concrete two-page walk. -/
def pageOneBody : Body :=
  ⟨"page1", some (Json.obj [("data", Json.arr [Json.str "a", Json.str "b"]),
    ("paging", Json.obj
      [("next", Json.str "https://api.opsgenie.com/v2/alerts?offset=20")])])⟩

/-- Second page of the concrete two-page walk. -/
def pageTwoBody : Body :=
  ⟨"page2", some (Json.obj [("data", Json.arr [Json.str "c"])])⟩

/-- Environment serving the concrete two-page walk. -/
def twoPageEnv : Env := fun k =>
  if k = 0 then TResult.ok 200 pageOneBody else TResult.ok 200 pageTwoBody

/-- Witness for `two_page_walk`: the concrete two-page walk over string items
`"a"`, `"b"`, `"c"`. -/
theorem two_page_walk_witness :
    (listAll twoPageEnv "/v2/alerts" [] (some fun _ => true) (0 + 1 + 1)).outcome =
      Outcome.ok ∧
    (listAll twoPageEnv "/v2/alerts" [] (some fun _ => true) (0 + 1 + 1)).result =
      some (Json.arr [Json.str "a", Json.str "b", Json.str "c"]) ∧
    (listAll twoPageEnv "/v2/alerts" [] (some fun _ => true) (0 + 1 + 1)).requests.length = 2 ∧
    (listAll twoPageEnv "/v2/alerts" [] (some fun _ => true) (0 + 1 + 1)).sleeps = [] :=
  two_page_walk twoPageEnv "/v2/alerts" [] (fun _ => true)
    (Json.str "a") (Json.str "b") (Json.str "c")
    "https://api.opsgenie.com/v2/alerts?offset=20" ("/v2/alerts", "offset=20")
    200 200 "page1" "page2" 0 rfl (by decide) (by decide) (by decide)
    (by decide) rfl (by decide) (by decide) rfl

/-- **C5** (confirmed): a single-page walk whose page carries a `data` field
that is a bare JSON object (not an array) and no paging block succeeds with a
one-element collection containing exactly that object, after one fetch. -/
theorem single_object_page (env : Env) (path : String)
    (params : List (String × String)) (accepts : Json → Bool)
    (flds : List (String × Json)) (s : Nat) (raw : String) (f : Nat)
    (henv0 : env 0 = TResult.ok s ⟨raw, some (Json.obj [("data", Json.obj flds)])⟩)
    (hsa : 200 ≤ s) (hsb : s < 300)
    (hacc : accepts (Json.arr [Json.obj flds]) = true) :
    (listAll env path params (some accepts) (f + 1)).outcome = Outcome.ok ∧
    (listAll env path params (some accepts) (f + 1)).result =
      some (Json.arr [Json.obj flds]) ∧
    (listAll env path params (some accepts) (f + 1)).requests.length = 1 := by
  have ha : s ≠ 429 := by omega
  have hr : ¬(s < 200 ∨ 300 ≤ s) := by omega
  simp [listAll, listAllLoop, henv0, ha, hr,
    decodePageEnvelope, decodePaging, decodeStrField, getField, hacc]

/-- Witness for `single_object_page`: a page whose `data` is the bare object
`{"id": "obj-1"}`. -/
theorem single_object_page_witness :
    (listAll (fun _ => TResult.ok 200 ⟨"obj", some (Json.obj
        [("data", Json.obj [("id", Json.str "obj-1")])])⟩)
      "/v2/account" [] (some fun _ => true) (0 + 1)).outcome = Outcome.ok ∧
    (listAll (fun _ => TResult.ok 200 ⟨"obj", some (Json.obj
        [("data", Json.obj [("id", Json.str "obj-1")])])⟩)
      "/v2/account" [] (some fun _ => true) (0 + 1)).result =
      some (Json.arr [Json.obj [("id", Json.str "obj-1")]]) ∧
    (listAll (fun _ => TResult.ok 200 ⟨"obj", some (Json.obj
        [("data", Json.obj [("id", Json.str "obj-1")])])⟩)
      "/v2/account" [] (some fun _ => true) (0 + 1)).requests.length = 1 :=
  single_object_page (fun _ => TResult.ok 200 ⟨"obj", some (Json.obj
      [("data", Json.obj [("id", Json.str "obj-1")])])⟩)
    "/v2/account" [] (fun _ => true) [("id", Json.str "obj-1")] 200 "obj" 0
    rfl (by decide) (by decide) rfl

/-- **C9** (confirmed): for every non-2xx status and raw body, when the body
decodes to an error response with a non-empty message the normalizer returns
the structured error with `code` overridden to the actual HTTP status and
`details` taken from `errors`, rendered as
`"OpsGenie API error <code>: <message>"` with `" (details: <details>)"`
appended exactly when the details are non-empty; otherwise it returns the
generic error rendered as
`"API error (status <code>): <body truncated to 500 characters>"`. -/
theorem error_normalizer_spec (status : Nat) (body : Body) :
    (∀ er : ErrorResponse, decodeErrorResponse body = some er → er.message ≠ "" →
      parseErrorResponse status body =
        ApiError.structured ⟨er.message, Int.ofNat status, er.errors⟩ ∧
      (parseErrorResponse status body).render =
        "OpsGenie API error " ++ toString (Int.ofNat status) ++ ": " ++ er.message ++
          (if er.errors = [] then ""
           else " (details: " ++ renderStrList er.errors ++ ")")) ∧
    ((decodeErrorResponse body = none ∨
        ∃ er : ErrorResponse, decodeErrorResponse body = some er ∧ er.message = "") →
      parseErrorResponse status body = ApiError.generic status body.raw ∧
      (parseErrorResponse status body).render =
        "API error (status " ++ toString status ++ "): " ++ truncate body.raw 500) := by
  constructor
  · intro er hdec hmsg
    rcases er with ⟨msg, code, errs⟩
    have hp : parseErrorResponse status body =
        ApiError.structured ⟨msg, Int.ofNat status, errs⟩ := by
      simp [parseErrorResponse, hdec, hmsg]
    refine ⟨hp, ?_⟩
    rw [hp]
    cases errs <;> simp [ApiError.render, ErrorResponse.render, String.append_assoc]
  · intro h
    have hp : parseErrorResponse status body = ApiError.generic status body.raw := by
      rcases h with h | ⟨er, hdec, hmsg⟩
      · simp [parseErrorResponse, h]
      · simp [parseErrorResponse, hdec, hmsg]
    exact ⟨hp, by rw [hp]; rfl⟩

/-- Body `{"message":"Alert not found","code":404}` of the concrete
normalizer example. -/
def notFoundBody : Body :=
  ⟨"\x7b\"message\":\"Alert not found\",\"code\":404\x7d",
   some (Json.obj [("message", Json.str "Alert not found"), ("code", Json.num 404)])⟩

/-- Witness for `error_normalizer_spec`: both branches at concrete inputs —
the structured 404 example, and the generic fallback on a non-JSON body. -/
theorem error_normalizer_spec_witness :
    (parseErrorResponse 404 notFoundBody =
        ApiError.structured ⟨"Alert not found", Int.ofNat 404, []⟩ ∧
      (parseErrorResponse 404 notFoundBody).render =
        "OpsGenie API error " ++ toString (Int.ofNat 404) ++ ": " ++ "Alert not found" ++
          (if ([] : List String) = [] then ""
           else " (details: " ++ renderStrList [] ++ ")")) ∧
    (parseErrorResponse 500 ⟨"<html>oops</html>", none⟩ =
        ApiError.generic 500 "<html>oops</html>" ∧
      (parseErrorResponse 500 ⟨"<html>oops</html>", none⟩).render =
        "API error (status " ++ toString 500 ++ "): " ++
          truncate "<html>oops</html>" 500) :=
  ⟨(error_normalizer_spec 404 notFoundBody).1 ⟨"Alert not found", 404, []⟩ rfl
      (by decide),
    (error_normalizer_spec 500 ⟨"<html>oops</html>", none⟩).2 (Or.inl rfl)⟩

end Opsgenie
